import Mathlib

/-!
Shallow embedding of the core of the aws-cloudformation-controller:
the `StackFollower` (registry, receiver, poll worker, status merge) from
`controllers/stack_follower.go` and the `StackReconciler` (reconcile loop,
create/update/delete logic, existence and ownership checks) from
`controllers/stack_controller.go`.

External collaborators (the Kubernetes client, the CloudFormation client and
the `CloudFormationHelper`) are modelled as oracles supplied in an `Env`
record; every remote call the embedded code issues is recorded in an explicit
`RemoteCall` trace, and channel handoffs to the follower are counted.
-/

namespace CfnCtrl

/-- `charsHaveLead p s` : the char list `p` starts the char list `s`
(helper for Go's `strings.Contains`). -/
def charsHaveLead : List Char → List Char → Bool
  | [], _ => true
  | _ :: _, [] => false
  | p :: ps, c :: cs => p == c && charsHaveLead ps cs

/-- `charsContain s p` : `p` occurs contiguously somewhere in `s`. -/
def charsContain : List Char → List Char → Bool
  | [], p => charsHaveLead p []
  | c :: cs, p => charsHaveLead p (c :: cs) || charsContain cs p

/-- Embedding of Go's `strings.Contains(s, pat)`. -/
def goContains (s pat : String) : Bool :=
  charsContain s.toList pat.toList

/-- A Go `map[string]string` value (possibly `nil`): `none` is the nil map,
`some l` an allocated map whose entries are the association list `l`. -/
abbrev GoMap := Option (List (String × String))

/-- Lookup in the association-list representation of a Go map. -/
def lookupKV (m : List (String × String)) (k : String) : Option String :=
  match m with
  | [] => none
  | p :: rest => if p.1 == k then some p.2 else lookupKV rest k

/-- `m[k] = v` insertion into a Go map: overwrite the key if present,
append a fresh entry otherwise. -/
def mapInsert (m : List (String × String)) (k v : String) : List (String × String) :=
  if m.any (fun p => p.1 == k) then
    m.map (fun p => if p.1 == k then (k, v) else p)
  else
    m ++ [(k, v)]

/-- Every binding of `a` is present in `b` with the same value. -/
def subMapKV (a b : List (String × String)) : Bool :=
  a.all (fun p => lookupKV b p.1 == some p.2)

/-- Extensional equality of two allocated Go maps (same bindings both ways);
for duplicate-free association lists this is Go's `reflect.DeepEqual`. -/
def mapEqKV (a b : List (String × String)) : Bool :=
  subMapKV a b && subMapKV b a

/-- Go's `reflect.DeepEqual` on two `map[string]string` values: a nil map is
never equal to an allocated map, even an empty one. -/
def deepEqualGoMap (a b : GoMap) : Bool :=
  match a, b with
  | none, none => true
  | some x, some y => mapEqKV x y
  | _, _ => false

/-- A CloudFormation tag (`cfTypes.Tag`, key and value dereferenced). -/
structure Tag where
  key : String
  value : String
deriving DecidableEq, Repr

/-- One entry of `cfs.Outputs` (`cfTypes.Output`, fields dereferenced). -/
structure StackOutput where
  outputKey : String
  outputValue : String
deriving DecidableEq, Repr

/-- One recorded stack resource (element of `instance.Status.Resources` and
of the list returned by `GetStackResources`); compared by `reflect.DeepEqual`,
so structural equality is the right notion. -/
structure StackResource where
  logicalId : String
  physicalId : String
  resourceType : String
  status : String
deriving DecidableEq, Repr

/-- The remote CloudFormation stack (`cfTypes.Stack`): the fields this
controller reads.  Timestamps are modelled as natural numbers. -/
structure CfStack where
  stackId : String
  stackStatus : String
  creationTime : Nat
  lastUpdatedTime : Option Nat
  outputs : Option (List StackOutput)
  tags : List Tag
  roleARN : Option String
deriving DecidableEq, Repr

/-- `types.NamespacedName`. -/
structure NamespacedName where
  name : String
  nsName : String
deriving DecidableEq, Repr

/-- The `Spec` of the `Stack` custom resource: the fields read by the
create/update/delete logic. -/
structure StackSpec where
  template : String
  templateUrl : String
  roleARN : String
  parameters : Option (List (String × String))
  tags : Option (List (String × String))
  notificationArns : List String
  onFailure : String
deriving DecidableEq, Repr

/-- The `Status` subrecord of the `Stack` custom resource. -/
structure StackStatusRec where
  stackID : String
  stackStatus : String
  createdTime : Option Nat
  updatedTime : Option Nat
  outputs : GoMap
  roleARN : String
  resources : List StackResource
deriving DecidableEq, Repr

/-- The `Stack` custom resource (`v1alpha1.Stack` / `v1beta1.Stack`):
metadata, spec and status the controller touches. -/
structure StackInstance where
  name : String
  nsName : String
  uid : String
  deletionTimestamp : Option Nat
  finalizers : List String
  spec : StackSpec
  status : StackStatusRec
deriving DecidableEq, Repr

/-- `controllerKey` constant. -/
def controllerKey : String := "kubernetes.io/controlled-by"

/-- `controllerValue` constant. -/
def controllerValue : String := "cloudformation.cuppett.com/operator"

/-- `legacyFinalizer` constant. -/
def legacyFinalizer : String := "finalizer.cloudformation.cuppett.com"

/-- `stacksFinalizer` constant. -/
def stacksFinalizer : String := "cloudformation.cuppett.com/finalizer"

/-- `ownerKey` constant. -/
def ownerKey : String := "kubernetes.io/owned-by"

/-- `controllerutil.ContainsFinalizer`. -/
def containsFinalizer (inst : StackInstance) (fin : String) : Bool :=
  inst.finalizers.any (· == fin)

/-- `controllerutil.AddFinalizer`: append when not already present. -/
def addFinalizer (inst : StackInstance) (fin : String) : StackInstance :=
  if containsFinalizer inst fin then inst
  else { inst with finalizers := inst.finalizers ++ [fin] }

/-- `controllerutil.RemoveFinalizer`: drop every occurrence of the marker. -/
def removeFinalizer (inst : StackInstance) (fin : String) : StackInstance :=
  { inst with finalizers := inst.finalizers.filter (fun f => ¬ f == fin) }

/-- The request structure shared by `cloudformation.CreateStackInput` and
`cloudformation.UpdateStackInput` as this controller fills them (update never
sets `OnFailure`). -/
structure TemplateInput where
  capabilities : List String
  stackName : String
  parameters : List (String × String)
  tags : List Tag
  roleARN : Option String
  notificationARNs : List String
  templateBody : Option String
  templateURL : Option String
  onFailure : Option String
deriving DecidableEq, Repr

/-- A CloudFormation API call issued by the embedded code, recorded in the
effect trace (Kubernetes persistence calls are counted separately). -/
inductive RemoteCall
  | getStack (stackId : String)
  | getStackResources (stackId : String)
  | createStack (input : TemplateInput)
  | updateStack (input : TemplateInput)
  | deleteStack (stackName : String)
deriving DecidableEq, Repr

/-- Errors surfaced by the embedded controller code. `stackNotFound` is the
sentinel `ErrStackNotFound`; `remote` carries a raw AWS error message (the
code matches sentinel substrings inside it); `kube` is a non-NotFound
Kubernetes persistence failure; `missingTemplateSpec` is
`ErrMissingTemplateSpec`. -/
inductive RErr
  | missingTemplateSpec
  | stackNotFound
  | remote (msg : String)
  | kube (msg : String)
deriving DecidableEq, Repr

/-- Outcome of a Kubernetes write (`r.Update` / `r.Status().Update`): the
code distinguishes a NotFound failure from any other failure. -/
inductive KubeWrite
  | ok
  | errNotFound
  | errOther (msg : String)
deriving DecidableEq, Repr

/-- Modelled from the spec: outcome of `CloudFormationHelper.GetStack`
(helper source not under src/).  Per §6, GetStack yields the remote stack,
a NotFound condition (`ErrStackNotFound`, whose message contains the
"does not exist" sentinel matched by `StackReconciler.getStack`), or another
error message. -/
inductive HelperStackRes
  | ok (s : CfStack)
  | errNotFound
  | errOther (msg : String)
deriving DecidableEq, Repr

/-- Outcome of fetching the owning `Stack` resource through the Kubernetes
client (`f.Client.Get` / `r.Client.Get`). -/
inductive KubeGetRes
  | found (inst : StackInstance)
  | errNotFound
  | errOther (msg : String)
deriving Repr

/-- The oracle environment: results the external collaborators (Kubernetes
client, CloudFormation client, `CloudFormationHelper`) return during one
pass.  Keyed results are functions of the identifier the code passes. -/
structure Env where
  cfGet : String → HelperStackRes
  cfResources : String → Except String (List StackResource)
  statusPersist : KubeWrite
  createRaw : Except String String
  updateRaw : Except String Unit
  deleteRaw : Except String Unit
  kubeUpdate : Except String Unit
  kubeGet : NamespacedName → KubeGetRes
  stackName : Bool → String
  terminal : String → Bool

/-- The `outputs` map built at the top of `updateStackStatus`: starts as an
allocated empty map, then one insertion per remote output entry. -/
def buildOutputs (outs : Option (List StackOutput)) : List (String × String) :=
  match outs with
  | none => []
  | some l => l.foldl (fun m o => mapInsert m o.outputKey o.outputValue) []

/-- The in-memory part of `updateStackStatus` before the resource fetch:
status (+ timestamps), stack ID / outputs, and role ARN blocks.  Returns the
mutated status and the `update` flag. -/
def mergeStatusPre (st : StackStatusRec) (cfs : CfStack) : StackStatusRec × Bool :=
  let outputs := buildOutputs cfs.outputs
  let (st, update) :=
    if cfs.stackStatus ≠ st.stackStatus then
      ({ st with
          stackStatus := cfs.stackStatus
          createdTime := some cfs.creationTime
          updatedTime :=
            match cfs.lastUpdatedTime with
            | some t => some t
            | none => st.updatedTime }, true)
    else (st, false)
  let (st, update) :=
    if cfs.stackId ≠ st.stackID ∨ ¬ deepEqualGoMap (some outputs) st.outputs then
      ({ st with
          stackID := cfs.stackId
          outputs := if outputs.length > 0 then some outputs else st.outputs }, true)
    else (st, update)
  let st :=
    match cfs.roleARN with
    | some r => if r ≠ "" then { st with roleARN := r } else { st with roleARN := "" }
    | none => { st with roleARN := "" }
  (st, update)

/-- The resource-summary block of `updateStackStatus`: overwrite and flag
when the fetched list differs structurally from the stored one. -/
def mergeResources (st : StackStatusRec) (resources : List StackResource)
    (update : Bool) : StackStatusRec × Bool :=
  if resources ≠ st.resources then
    ({ st with resources := resources }, true)
  else (st, update)

/-- Result of one `updateStackStatus` invocation: outcome, the (possibly
mutated in memory) resource, the CloudFormation calls issued, and the number
of `Status().Update` persistence calls made. -/
structure MergeOut where
  result : Except RErr Unit
  inst : StackInstance
  calls : List RemoteCall
  persists : Nat
deriving Repr

/-- The body of `updateStackStatus` once a remote stack `cfs` is in hand;
`calls0` is the fetch trace already incurred before the body runs. -/
def updateStackStatusWith (env : Env) (inst : StackInstance) (cfs : CfStack)
    (calls0 : List RemoteCall) : MergeOut :=
  let (st1, u1) := mergeStatusPre inst.status cfs
  match env.cfResources st1.stackID with
  | .error msg =>
    ⟨.error (.remote msg), { inst with status := st1 },
      calls0 ++ [.getStackResources st1.stackID], 0⟩
  | .ok resources =>
    let (st2, u2) := mergeResources st1 resources u1
    let inst2 := { inst with status := st2 }
    let calls := calls0 ++ [.getStackResources st1.stackID]
    if u2 then
      match env.statusPersist with
      | .ok => ⟨.ok (), inst2, calls, 1⟩
      | .errNotFound => ⟨.ok (), inst2, calls, 1⟩
      | .errOther msg => ⟨.error (.kube msg), inst2, calls, 1⟩
    else ⟨.ok (), inst2, calls, 0⟩

/-- `StackFollower.updateStackStatus`: fetch the remote stack unless one is
supplied, merge status / ID / outputs / role ARN, fetch the stack resources,
merge them, and issue one `Status().Update` exactly when the `update` flag is
set (a NotFound persistence failure is absorbed). -/
def updateStackStatus (env : Env) (inst : StackInstance)
    (pre : Option CfStack) : MergeOut :=
  match pre with
  | none =>
    match env.cfGet inst.status.stackID with
    | .errNotFound => ⟨.error .stackNotFound, inst, [.getStack inst.status.stackID], 0⟩
    | .errOther msg => ⟨.error (.remote msg), inst, [.getStack inst.status.stackID], 0⟩
    | .ok cfs => updateStackStatusWith env inst cfs [.getStack inst.status.stackID]
  | some cfs => updateStackStatusWith env inst cfs []

/-- Modelled from the spec: `StackFollower.UpdateStackStatus` (the exported
wrapper called by `updateStack`; its source is not under src/).  §4.3: the
merger is "given a resource and a freshly fetched remote stack (or triggers
a fetch if none supplied)"; the wrapper supplies no stack, so it runs the
merge with a fresh fetch. -/
def UpdateStackStatusPub (env : Env) (inst : StackInstance) : MergeOut :=
  updateStackStatus env inst none

/-- The per-process configuration of `StackReconciler`: `DefaultTags`,
`DefaultCapabilities`, `DryRun`. -/
structure ReconcilerConfig where
  defaultTags : List (String × String)
  defaultCapabilities : List String
  dryRun : Bool
deriving Repr

/-- `StackReconciler.getStack`: memoized fetch of the remote stack within one
reconcile pass.  `cache` is `loop.stack`; a fetch happens when `noCache` is
set or no stack is cached.  A raw error whose text contains the
"does not exist" sentinel becomes `ErrStackNotFound` (the helper's own
NotFound error carries that sentinel). -/
def getStackMemo (env : Env) (inst : StackInstance) :
    Option CfStack → Bool → Except RErr CfStack × Option CfStack × List RemoteCall
  | some s, false => (.ok s, some s, [])
  | _, _ =>
    match env.cfGet inst.status.stackID with
    | .errNotFound => (.error .stackNotFound, none, [.getStack inst.status.stackID])
    | .errOther msg =>
      (if goContains msg "does not exist" then .error .stackNotFound
       else .error (.remote msg), none, [.getStack inst.status.stackID])
    | .ok s => (.ok s, some s, [.getStack inst.status.stackID])

/-- `StackReconciler.stackExists`: `ErrStackNotFound` means "does not exist"
with no error; a stack whose status is `DELETE_COMPLETE` also does not
exist. -/
def stackExists (env : Env) (inst : StackInstance) (cache : Option CfStack) :
    Except RErr Bool × Option CfStack × List RemoteCall :=
  match getStackMemo env inst cache false with
  | (.error .stackNotFound, c, calls) => (.ok false, c, calls)
  | (.error e, c, calls) => (.error e, c, calls)
  | (.ok s, c, calls) =>
    if s.stackStatus = "DELETE_COMPLETE" then (.ok false, c, calls)
    else (.ok true, c, calls)

/-- `StackReconciler.hasOwnership`: vacuously true when the stack does not
exist; otherwise true exactly when some remote tag matches the fixed
controller key/value pair. -/
def hasOwnership (env : Env) (inst : StackInstance) (cache : Option CfStack) :
    Except RErr Bool × Option CfStack × List RemoteCall :=
  match stackExists env inst cache with
  | (.error e, c, calls) => (.error e, c, calls)
  | (.ok false, c, calls) => (.ok true, c, calls)
  | (.ok true, c, calls) =>
    match getStackMemo env inst c false with
    | (.error e, c2, calls2) => (.error e, c2, calls ++ calls2)
    | (.ok cfs, c2, calls2) =>
      (.ok (cfs.tags.any fun t => t.key == controllerKey && t.value == controllerValue),
       c2, calls ++ calls2)

/-- `StackReconciler.stackParameters`: the spec's parameter map as
CloudFormation parameters (empty when the map is nil). -/
def stackParameters (inst : StackInstance) : List (String × String) :=
  match inst.spec.parameters with
  | none => []
  | some ps => ps

/-- `StackReconciler.stackTags`: fixed ownership tags, then process-wide
default tags, then the user tags from the resource spec. -/
def stackTags (cfg : ReconcilerConfig) (inst : StackInstance) : List Tag :=
  [⟨controllerKey, controllerValue⟩, ⟨ownerKey, inst.uid⟩]
    ++ cfg.defaultTags.map (fun p => ⟨p.1, p.2⟩)
    ++ (match inst.spec.tags with
        | none => []
        | some ts => ts.map fun p => ⟨p.1, p.2⟩)

/-- Result of one create/update/delete action: outcome, the resource as left
in memory, the CloudFormation calls issued, the number of follower-channel
sends, of `Status().Update` persistence calls, and of metadata `r.Update`
calls. -/
structure ActOut where
  result : Except RErr Unit
  inst : StackInstance
  calls : List RemoteCall
  sends : Nat
  persists : Nat
  kubeUpdates : Nat
deriving Repr

/-- `StackReconciler.createStack`: dry-run short-circuit; tag and input
assembly; `ErrMissingTemplateSpec` when neither template body nor template
URL is set (template body wins when both are); on success the returned stack
ID is recorded and the resource is handed to the follower. -/
def createStack (cfg : ReconcilerConfig) (env : Env) (inst : StackInstance) : ActOut :=
  if cfg.dryRun then ⟨.ok (), inst, [], 0, 0, 0⟩
  else
    let tags := stackTags cfg inst
    let base : TemplateInput := {
      capabilities := cfg.defaultCapabilities
      stackName := env.stackName false
      parameters := stackParameters inst
      tags := tags
      roleARN := if inst.spec.roleARN ≠ "" then some inst.spec.roleARN else none
      notificationARNs := inst.spec.notificationArns
      templateBody := none
      templateURL := none
      onFailure := if inst.spec.onFailure ≠ "" then some inst.spec.onFailure else none }
    if inst.spec.template = "" ∧ inst.spec.templateUrl = "" then
      ⟨.error .missingTemplateSpec, inst, [], 0, 0, 0⟩
    else
      let input :=
        if inst.spec.template ≠ "" then { base with templateBody := some inst.spec.template }
        else { base with templateURL := some inst.spec.templateUrl }
      match env.createRaw with
      | .error msg => ⟨.error (.remote msg), inst, [.createStack input], 0, 0, 0⟩
      | .ok sid =>
        ⟨.ok (), { inst with status := { inst.status with stackID := sid } },
          [.createStack input], 1, 0, 0⟩

/-- `StackReconciler.updateStack`: dry-run short-circuit; same template
check and input assembly (no `OnFailure`); a failed remote update whose text
contains the "No updates are to be performed." sentinel triggers a direct
status refresh and returns its result with no handoff; the "does not exist"
sentinel falls back to create logic; on success the resource is handed to
the follower. -/
def updateStack (cfg : ReconcilerConfig) (env : Env) (inst : StackInstance) : ActOut :=
  if cfg.dryRun then ⟨.ok (), inst, [], 0, 0, 0⟩
  else
    let tags := stackTags cfg inst
    let base : TemplateInput := {
      capabilities := cfg.defaultCapabilities
      stackName := env.stackName true
      parameters := stackParameters inst
      tags := tags
      roleARN := if inst.spec.roleARN ≠ "" then some inst.spec.roleARN else none
      notificationARNs := inst.spec.notificationArns
      templateBody := none
      templateURL := none
      onFailure := none }
    if inst.spec.template = "" ∧ inst.spec.templateUrl = "" then
      ⟨.error .missingTemplateSpec, inst, [], 0, 0, 0⟩
    else
      let input :=
        if inst.spec.template ≠ "" then { base with templateBody := some inst.spec.template }
        else { base with templateURL := some inst.spec.templateUrl }
      match env.updateRaw with
      | .ok _ => ⟨.ok (), inst, [.updateStack input], 1, 0, 0⟩
      | .error msg =>
        if goContains msg "No updates are to be performed." then
          let m := UpdateStackStatusPub env inst
          ⟨m.result, m.inst, .updateStack input :: m.calls, 0, m.persists, 0⟩
        else if goContains msg "does not exist" then
          let c := createStack cfg env inst
          ⟨c.result, c.inst, .updateStack input :: c.calls, c.sends, c.persists, c.kubeUpdates⟩
        else ⟨.error (.remote msg), inst, [.updateStack input], 0, 0, 0⟩

/-- `StackReconciler.deleteStack`: dry-run short-circuit before anything
else; ownership re-verification (no ownership → success with no delete
call); otherwise the remote delete is issued and the resource handed to the
follower. -/
def deleteStack (cfg : ReconcilerConfig) (env : Env) (inst : StackInstance)
    (cache : Option CfStack) : ActOut :=
  if cfg.dryRun then ⟨.ok (), inst, [], 0, 0, 0⟩
  else
    match hasOwnership env inst cache with
    | (.error e, _, calls) => ⟨.error e, inst, calls, 0, 0, 0⟩
    | (.ok false, _, calls) => ⟨.ok (), inst, calls, 0, 0, 0⟩
    | (.ok true, _, calls) =>
      match env.deleteRaw with
      | .error msg =>
        ⟨.error (.remote msg), inst, calls ++ [.deleteStack (env.stackName true)], 0, 0, 0⟩
      | .ok _ =>
        ⟨.ok (), inst, calls ++ [.deleteStack (env.stackName true)], 1, 0, 0⟩

/-- Result of one `Reconcile` invocation (`inst` is `none` when the resource
could not be fetched). -/
structure ReconOut where
  result : Except RErr Unit
  inst : Option StackInstance
  calls : List RemoteCall
  sends : Nat
  persists : Nat
  kubeUpdates : Nat
deriving Repr

/-- `StackReconciler.Reconcile`: fetch the resource; finalize or delete when
marked for deletion; otherwise ensure the finalizer, then decide between
handoff, update and create from existence + ownership + terminal state. -/
def reconcile (cfg : ReconcilerConfig) (env : Env) (nn : NamespacedName) : ReconOut :=
  match env.kubeGet nn with
  | .errNotFound => ⟨.ok (), none, [], 0, 0, 0⟩
  | .errOther msg => ⟨.error (.kube msg), none, [], 0, 0, 0⟩
  | .found inst =>
    if inst.deletionTimestamp.isSome then
      if containsFinalizer inst stacksFinalizer || containsFinalizer inst legacyFinalizer then
        if inst.status.stackStatus = "DELETE_COMPLETE" ∨ inst.status.stackStatus = "" then
          let inst2 := removeFinalizer (removeFinalizer inst stacksFinalizer) legacyFinalizer
          match env.kubeUpdate with
          | .ok _ => ⟨.ok (), some inst2, [], 0, 0, 1⟩
          | .error msg => ⟨.error (.kube msg), some inst2, [], 0, 0, 1⟩
        else
          let d := deleteStack cfg env inst none
          ⟨d.result, some d.inst, d.calls, d.sends, d.persists, 0⟩
      else ⟨.ok (), some inst, [], 0, 0, 0⟩
    else
      if ¬ containsFinalizer inst stacksFinalizer then
        let inst2 := addFinalizer inst stacksFinalizer
        match env.kubeUpdate with
        | .ok _ => ⟨.ok (), some inst2, [], 0, 0, 1⟩
        | .error msg => ⟨.error (.kube msg), some inst2, [], 0, 0, 1⟩
      else
        match stackExists env inst none with
        | (.error e, _, calls) => ⟨.error e, some inst, calls, 0, 0, 0⟩
        | (.ok false, _, calls) =>
          let c := createStack cfg env inst
          ⟨c.result, some c.inst, calls ++ c.calls, c.sends, c.persists, c.kubeUpdates⟩
        | (.ok true, cache, calls) =>
          match hasOwnership env inst cache with
          | (.ok true, cache2, calls2) =>
            match cache2 with
            | some s =>
              if ¬ env.terminal s.stackStatus then
                ⟨.ok (), some inst, calls ++ calls2, 1, 0, 0⟩
              else
                let u := updateStack cfg env inst
                ⟨u.result, some u.inst, calls ++ calls2 ++ u.calls, u.sends, u.persists,
                  u.kubeUpdates⟩
            | none =>
              -- Unreachable: when `stackExists` answers true the fetched stack
              -- stays cached, so ownership leaves a cached stack in place
              -- (see `stackExists_true_cache`).
              let c := createStack cfg env inst
              ⟨c.result, some c.inst, calls ++ calls2 ++ c.calls, c.sends, c.persists,
                c.kubeUpdates⟩
          | (.ok false, _, calls2) =>
            let c := createStack cfg env inst
            ⟨c.result, some c.inst, calls ++ calls2 ++ c.calls, c.sends, c.persists,
              c.kubeUpdates⟩
          | (.error _, _, calls2) =>
            -- `ownership, _ := r.hasOwnership(loop)` discards the error, so an
            -- ownership failure behaves as "not owned" and falls to create.
            let c := createStack cfg env inst
            ⟨c.result, some c.inst, calls ++ calls2 ++ c.calls, c.sends, c.persists,
              c.kubeUpdates⟩

/-- The mutable state of `StackFollower`: the `mapPollingList` registry
(stack ID → resource locator), the "currently following" gauge and the
monotone "total followed" counter. -/
structure FollowerState where
  registry : List (String × NamespacedName)
  following : Int
  followed : Nat
deriving Repr

/-- `StackFollower.BeingFollowed`: registry lookup. -/
def beingFollowed (s : FollowerState) (stackId : String) : Bool :=
  s.registry.any (·.1 == stackId)

/-- `sync.Map.Store`: overwrite the key when present, append otherwise. -/
def syncMapStore (reg : List (String × NamespacedName)) (k : String)
    (v : NamespacedName) : List (String × NamespacedName) :=
  if reg.any (·.1 == k) then
    reg.map (fun p => if p.1 == k then (k, v) else p)
  else reg ++ [(k, v)]

/-- `sync.Map.Delete`: drop every entry at the key. -/
def syncMapDelete (reg : List (String × NamespacedName)) (k : String) :
    List (String × NamespacedName) :=
  reg.filter (fun p => ¬ p.1 == k)

/-- `StackFollower.startFollowing`: store the locator under the stack ID and
increment both metrics. -/
def startFollowing (s : FollowerState) (stack : StackInstance) : FollowerState :=
  { registry := syncMapStore s.registry stack.status.stackID ⟨stack.name, stack.nsName⟩
    following := s.following + 1
    followed := s.followed + 1 }

/-- `StackFollower.stopFollowing`: delete the entry and decrement only the
gauge. -/
def stopFollowing (s : FollowerState) (stackId : String) : FollowerState :=
  { registry := syncMapDelete s.registry stackId
    following := s.following - 1
    followed := s.followed }

/-- One iteration of `StackFollower.Receiver`: a handoff request is ignored
when its stack ID is already being followed, otherwise following starts. -/
def receiveOne (s : FollowerState) (stack : StackInstance) : FollowerState :=
  if ¬ beingFollowed s stack.status.stackID then startFollowing s stack
  else s

/-- `StackFollower.processStack`, the per-entry body of the poll worker:
refetch the owning resource (gone → stop following); fetch the remote stack
(`ErrStackNotFound` → stop following, other error → retain); otherwise merge
status and, on merge success with a terminal remote status, stop following.
Returns the updated state and the CloudFormation calls issued. -/
def processStack (env : Env) (s : FollowerState)
    (e : String × NamespacedName) : FollowerState × List RemoteCall :=
  match env.kubeGet e.2 with
  | .errNotFound => (stopFollowing s e.1, [])
  | .errOther _ => (s, [])
  | .found stack =>
    match env.cfGet stack.status.stackID with
    | .errNotFound => (stopFollowing s e.1, [.getStack stack.status.stackID])
    | .errOther _ => (s, [.getStack stack.status.stackID])
    | .ok cfs =>
      let m := updateStackStatusWith env stack cfs []
      match m.result with
      | .error _ => (s, .getStack stack.status.stackID :: m.calls)
      | .ok _ =>
        (if env.terminal cfs.stackStatus then stopFollowing s e.1 else s,
         .getStack stack.status.stackID :: m.calls)

/-- One tick of `StackFollower.Worker`: `mapPollingList.Range(processStack)`
over a snapshot of the registry, accumulating per-entry state updates and
call traces. -/
def tick (env : Env) (s : FollowerState) : FollowerState × List RemoteCall :=
  s.registry.foldl
    (fun acc e =>
      ((processStack env acc.1 e).1, acc.2 ++ (processStack env acc.1 e).2))
    (s, [])

/-- `n` consecutive ticks of the poll worker, with the concatenated call
trace. -/
def tickN (env : Env) (s : FollowerState) : Nat → FollowerState × List RemoteCall
  | 0 => (s, [])
  | n + 1 =>
    let r := tick env s
    let rest := tickN env r.1 n
    (rest.1, r.2 ++ rest.2)

/-- The stack identifier a recorded CloudFormation call is about (the stack
name for create/update/delete requests). -/
def callId : RemoteCall → String
  | .getStack sid => sid
  | .getStackResources sid => sid
  | .createStack input => input.stackName
  | .updateStack input => input.stackName
  | .deleteStack name => name

/-! ### Concrete fixtures used by witnesses and counterexamples -/

/-- A resource locator fixture. -/
def nnBase : NamespacedName := ⟨"s", "ns"⟩

/-- A spec fixture with a template body only. -/
def specBase : StackSpec :=
  { template := "body", templateUrl := "", roleARN := "", parameters := none
    tags := none, notificationArns := [], onFailure := "" }

/-- A stored status fixture matching `cfsBase` exactly (an unchanged merge). -/
def stBase : StackStatusRec :=
  { stackID := "sid-1", stackStatus := "CREATE_COMPLETE", createdTime := some 5
    updatedTime := none, outputs := some [], roleARN := "", resources := [] }

/-- A remote stack fixture owned by the controller. -/
def cfsBase : CfStack :=
  { stackId := "sid-1", stackStatus := "CREATE_COMPLETE", creationTime := 5
    lastUpdatedTime := none, outputs := none
    tags := [⟨controllerKey, controllerValue⟩], roleARN := none }

/-- A resource fixture carrying the current finalizer. -/
def instBase : StackInstance :=
  { name := "s", nsName := "ns", uid := "u1", deletionTimestamp := none
    finalizers := [stacksFinalizer], spec := specBase, status := stBase }

/-- The oracle fixture: every collaborator call succeeds. -/
def envBase : Env :=
  { cfGet := fun _ => .ok cfsBase
    cfResources := fun _ => .ok []
    statusPersist := .ok
    createRaw := .ok "sid-new"
    updateRaw := .ok ()
    deleteRaw := .ok ()
    kubeUpdate := .ok ()
    kubeGet := fun _ => .found instBase
    stackName := fun _ => "s"
    terminal := fun st =>
      st == "CREATE_COMPLETE" || st == "UPDATE_COMPLETE" ||
      st == "DELETE_COMPLETE" || st == "ROLLBACK_COMPLETE" }

/-- The configuration fixture: no defaults, dry-run off. -/
def cfgBase : ReconcilerConfig :=
  { defaultTags := [], defaultCapabilities := [], dryRun := false }

/-! ### Lemmas about the status merge -/

/-- The status/ID/outputs blocks of the merge never touch the stored
resource-summary list. -/
theorem mergeStatusPre_resources (st : StackStatusRec) (cfs : CfStack) :
    (mergeStatusPre st cfs).1.resources = st.resources := by
  by_cases h1 : cfs.stackStatus = st.stackStatus <;>
    by_cases h2 : cfs.stackId = st.stackID <;>
      cases h3 : deepEqualGoMap (some (buildOutputs cfs.outputs)) st.outputs <;>
        cases hr : cfs.roleARN <;>
          simp [mergeStatusPre, h1, h2, h3, hr] <;>
            split <;> simp

/-- The `update` flag after the in-memory blocks: set exactly when the
lifecycle status, the stack ID, or the output map changed. -/
theorem mergeStatusPre_flag (st : StackStatusRec) (cfs : CfStack) :
    (mergeStatusPre st cfs).2 = true ↔
      (cfs.stackStatus ≠ st.stackStatus ∨ cfs.stackId ≠ st.stackID ∨
        ¬ deepEqualGoMap (some (buildOutputs cfs.outputs)) st.outputs) := by
  by_cases h1 : cfs.stackStatus = st.stackStatus <;>
    by_cases h2 : cfs.stackId = st.stackID <;>
      cases h3 : deepEqualGoMap (some (buildOutputs cfs.outputs)) st.outputs <;>
        simp [mergeStatusPre, h1, h2, h3]

/-- The merged role ARN is always the remote one, cleared to empty when the
remote stack carries none. -/
theorem mergeStatusPre_roleARN (st : StackStatusRec) (cfs : CfStack) :
    (mergeStatusPre st cfs).1.roleARN =
      (match cfs.roleARN with
       | some r => if r ≠ "" then r else ""
       | none => "") := by
  by_cases h1 : cfs.stackStatus = st.stackStatus <;>
    by_cases h2 : cfs.stackId = st.stackID <;>
      cases h3 : deepEqualGoMap (some (buildOutputs cfs.outputs)) st.outputs <;>
        cases hr : cfs.roleARN <;>
          simp [mergeStatusPre, h1, h2, h3, hr] <;>
            split <;> simp

/-- The merged output map: overwritten by a non-empty rebuilt map when the ID
or map changed, untouched otherwise. -/
theorem mergeStatusPre_outputs (st : StackStatusRec) (cfs : CfStack) :
    (mergeStatusPre st cfs).1.outputs =
      (if cfs.stackId ≠ st.stackID ∨
          ¬ deepEqualGoMap (some (buildOutputs cfs.outputs)) st.outputs then
        (if 0 < (buildOutputs cfs.outputs).length then some (buildOutputs cfs.outputs)
         else st.outputs)
       else st.outputs) := by
  by_cases h1 : cfs.stackStatus = st.stackStatus <;>
    by_cases h2 : cfs.stackId = st.stackID <;>
      cases h3 : deepEqualGoMap (some (buildOutputs cfs.outputs)) st.outputs <;>
        cases hr : cfs.roleARN <;>
          simp [mergeStatusPre, h1, h2, h3, hr] <;>
            split <;> simp

/-- The resource block leaves the output map alone. -/
theorem mergeResources_outputs (st : StackStatusRec) (rs : List StackResource)
    (u : Bool) : (mergeResources st rs u).1.outputs = st.outputs := by
  by_cases h : rs ≠ st.resources <;> simp [mergeResources, h]

/-- The flag after the resource block: the earlier flag, or a changed
resource list. -/
theorem mergeResources_flag (st : StackStatusRec) (rs : List StackResource)
    (u : Bool) :
    (mergeResources st rs u).2 = true ↔ (rs ≠ st.resources ∨ u = true) := by
  by_cases h : rs ≠ st.resources <;> simp [mergeResources, h]

/-- The resource block leaves the role ARN alone. -/
theorem mergeResources_roleARN (st : StackStatusRec) (rs : List StackResource)
    (u : Bool) : (mergeResources st rs u).1.roleARN = st.roleARN := by
  by_cases h : rs ≠ st.resources <;> simp [mergeResources, h]

/-- When the resource fetch succeeds, the merge body issues a persistence
call exactly when one of {lifecycle status, stack ID, output map, resource
list} changed. -/
theorem updateStackStatusWith_persists (env : Env) (inst : StackInstance)
    (cfs : CfStack) (calls0 : List RemoteCall) (resources : List StackResource)
    (hres : env.cfResources (mergeStatusPre inst.status cfs).1.stackID = .ok resources) :
    (updateStackStatusWith env inst cfs calls0).persists =
      if cfs.stackStatus ≠ inst.status.stackStatus ∨ cfs.stackId ≠ inst.status.stackID ∨
         ¬ deepEqualGoMap (some (buildOutputs cfs.outputs)) inst.status.outputs ∨
         resources ≠ inst.status.resources
      then 1 else 0 := by
  have hflag := mergeStatusPre_flag inst.status cfs
  have hresrc := mergeStatusPre_resources inst.status cfs
  rcases hm : mergeStatusPre inst.status cfs with ⟨st1, u1⟩
  rw [hm] at hflag hresrc hres
  have hres' : env.cfResources st1.stackID = .ok resources := hres
  have hflag' : u1 = true ↔
      (cfs.stackStatus ≠ inst.status.stackStatus ∨ cfs.stackId ≠ inst.status.stackID ∨
        ¬ deepEqualGoMap (some (buildOutputs cfs.outputs)) inst.status.outputs) := hflag
  have hresrc' : st1.resources = inst.status.resources := hresrc
  have hflag2 := mergeResources_flag st1 resources u1
  rcases hm2 : mergeResources st1 resources u1 with ⟨st2, u2⟩
  rw [hm2] at hflag2
  have hu2 : u2 = true ↔
      (cfs.stackStatus ≠ inst.status.stackStatus ∨ cfs.stackId ≠ inst.status.stackID ∨
        ¬ deepEqualGoMap (some (buildOutputs cfs.outputs)) inst.status.outputs ∨
        resources ≠ inst.status.resources) := by
    rw [hflag2, hresrc', hflag']
    constructor
    · rintro (h | h | h | h)
      exacts [Or.inr (Or.inr (Or.inr h)), Or.inl h, Or.inr (Or.inl h),
        Or.inr (Or.inr (Or.inl h))]
    · rintro (h | h | h | h)
      exacts [Or.inr (Or.inl h), Or.inr (Or.inr (Or.inl h)),
        Or.inr (Or.inr (Or.inr h)), Or.inl h]
  have hL : (updateStackStatusWith env inst cfs calls0).persists =
      if u2 = true then 1 else 0 := by
    simp only [updateStackStatusWith, hm, hres', hm2]
    cases h : env.statusPersist <;> cases u2 <;> simp
  rw [hL, if_congr hu2 rfl rfl]

/-- When the resource fetch succeeds, the in-memory resource after the merge
body carries the fully merged status. -/
theorem updateStackStatusWith_status (env : Env) (inst : StackInstance)
    (cfs : CfStack) (calls0 : List RemoteCall) (resources : List StackResource)
    (hres : env.cfResources (mergeStatusPre inst.status cfs).1.stackID = .ok resources) :
    (updateStackStatusWith env inst cfs calls0).inst.status =
      (mergeResources (mergeStatusPre inst.status cfs).1 resources
        (mergeStatusPre inst.status cfs).2).1 := by
  rcases hm : mergeStatusPre inst.status cfs with ⟨st1, u1⟩
  rw [hm] at hres
  have hres' : env.cfResources st1.stackID = .ok resources := hres
  rcases hm2 : mergeResources st1 resources u1 with ⟨st2, u2⟩
  simp only [updateStackStatusWith, hm, hres', hm2]
  cases h : env.statusPersist <;> cases u2 <;> simp

/-- A remote stack differing from `cfsBase` only in the role ARN. -/
def cfsRole : CfStack := { cfsBase with roleARN := some "arn-new" }

/-- The oracle fixture whose remote stack carries the new role ARN. -/
def envC1 : Env := { envBase with cfGet := fun _ => .ok cfsRole }

/-- C1 counterexample: a fetched remote stack differing from the stored
status only in the role ARN.  The merge overwrites the role ARN in memory
but issues no persistence call, refuting "a change in the role ARN alone
triggers exactly one persistence call". -/
theorem c1_roleArn_only_change_no_persist :
    instBase.status.roleARN = "" ∧
    (updateStackStatus envC1 instBase none).inst.status.roleARN = "arn-new" ∧
    (updateStackStatus envC1 instBase none).persists = 0 := by
  refine ⟨rfl, rfl, rfl⟩

/-- C1 (amended): when the resource fetch succeeds, the status merge issues
a persistence call if and only if the lifecycle status, the remote
identifier, the output map, or the resource summary list differs from the
stored status; the role ARN is overwritten in memory (cleared to empty when
absent upstream) but by itself never triggers persistence. -/
theorem c1_persist_iff_tracked_change (env : Env) (inst : StackInstance)
    (cfs : CfStack) (resources : List StackResource)
    (hres : env.cfResources (mergeStatusPre inst.status cfs).1.stackID = .ok resources) :
    ((updateStackStatus env inst (some cfs)).persists =
      if cfs.stackStatus ≠ inst.status.stackStatus ∨ cfs.stackId ≠ inst.status.stackID ∨
         ¬ deepEqualGoMap (some (buildOutputs cfs.outputs)) inst.status.outputs ∨
         resources ≠ inst.status.resources
      then 1 else 0) ∧
    (updateStackStatus env inst (some cfs)).inst.status.roleARN =
      (match cfs.roleARN with
       | some r => if r ≠ "" then r else ""
       | none => "") := by
  constructor
  · simpa [updateStackStatus] using
      updateStackStatusWith_persists env inst cfs [] resources hres
  · have h : (updateStackStatus env inst (some cfs)).inst.status =
        (mergeResources (mergeStatusPre inst.status cfs).1 resources
          (mergeStatusPre inst.status cfs).2).1 := by
      simpa [updateStackStatus] using
        updateStackStatusWith_status env inst cfs [] resources hres
    rw [h, mergeResources_roleARN, mergeStatusPre_roleARN]

/-- Witness for the amended C1 theorem at a concrete input: the fixture's
resource fetch succeeds and nothing differs, so no persistence call is
made. -/
theorem c1_persist_iff_tracked_change_witness :
    (updateStackStatus envBase instBase (some cfsBase)).persists =
      (if cfsBase.stackStatus ≠ instBase.status.stackStatus ∨
          cfsBase.stackId ≠ instBase.status.stackID ∨
          ¬ deepEqualGoMap (some (buildOutputs cfsBase.outputs)) instBase.status.outputs ∨
          ([] : List StackResource) ≠ instBase.status.resources
       then 1 else 0) :=
  (c1_persist_iff_tracked_change envBase instBase cfsBase [] rfl).1

/-- A stored status whose output map is still nil. -/
def stNilOutputs : StackStatusRec := { stBase with outputs := none }

/-- A resource fixture whose stored output map is still nil. -/
def instNilOutputs : StackInstance := { instBase with status := stNilOutputs }

/-- C6: when the rebuilt output map differs structurally from the stored
one, a persistence call is issued, but the stored map is overwritten only
when the rebuilt map is non-empty; an empty rebuild leaves the stored
outputs untouched. -/
theorem c6_outputs_overwrite_only_nonempty (env : Env) (inst : StackInstance)
    (cfs : CfStack) (resources : List StackResource)
    (hres : env.cfResources (mergeStatusPre inst.status cfs).1.stackID = .ok resources)
    (hdiff : deepEqualGoMap (some (buildOutputs cfs.outputs)) inst.status.outputs = false) :
    (updateStackStatus env inst (some cfs)).persists = 1 ∧
    (updateStackStatus env inst (some cfs)).inst.status.outputs =
      (if 0 < (buildOutputs cfs.outputs).length then some (buildOutputs cfs.outputs)
       else inst.status.outputs) := by
  have hcond : cfs.stackId ≠ inst.status.stackID ∨
      ¬ deepEqualGoMap (some (buildOutputs cfs.outputs)) inst.status.outputs := by
    right
    simp [hdiff]
  constructor
  · have h : (updateStackStatus env inst (some cfs)).persists =
        if cfs.stackStatus ≠ inst.status.stackStatus ∨
           cfs.stackId ≠ inst.status.stackID ∨
           ¬ deepEqualGoMap (some (buildOutputs cfs.outputs)) inst.status.outputs ∨
           resources ≠ inst.status.resources
        then 1 else 0 := by
      simpa [updateStackStatus] using
        updateStackStatusWith_persists env inst cfs [] resources hres
    rw [h, if_pos (Or.inr (hcond.imp id Or.inl))]
  · have h : (updateStackStatus env inst (some cfs)).inst.status =
        (mergeResources (mergeStatusPre inst.status cfs).1 resources
          (mergeStatusPre inst.status cfs).2).1 := by
      simpa [updateStackStatus] using
        updateStackStatusWith_status env inst cfs [] resources hres
    rw [h, mergeResources_outputs, mergeStatusPre_outputs, if_pos hcond]

/-- Witness for C6 at a concrete input: the remote stack has no outputs, the
stored map is nil, so they differ structurally; one persistence call is made
and the stored outputs stay nil. -/
theorem c6_outputs_overwrite_only_nonempty_witness :
    deepEqualGoMap (some (buildOutputs cfsBase.outputs)) instNilOutputs.status.outputs
        = false ∧
    (updateStackStatus envBase instNilOutputs (some cfsBase)).persists = 1 ∧
    (updateStackStatus envBase instNilOutputs (some cfsBase)).inst.status.outputs =
      (if 0 < (buildOutputs cfsBase.outputs).length then some (buildOutputs cfsBase.outputs)
       else instNilOutputs.status.outputs) :=
  ⟨rfl,
    (c6_outputs_overwrite_only_nonempty envBase instNilOutputs cfsBase [] rfl rfl).1,
    (c6_outputs_overwrite_only_nonempty envBase instNilOutputs cfsBase [] rfl rfl).2⟩

/-- A resource marked for deletion whose remote deletion is already
recorded. -/
def instDel : StackInstance :=
  { instBase with
      deletionTimestamp := some 9
      status := { stBase with stackStatus := "DELETE_COMPLETE" } }

/-- A resource marked for deletion whose remote stack is still live. -/
def instDelBusy : StackInstance :=
  { instBase with deletionTimestamp := some 9 }

/-- The oracle fixture serving `instDel`. -/
def envDel : Env := { envBase with kubeGet := fun _ => .found instDel }

/-- The oracle fixture serving `instDelBusy`. -/
def envDelBusy : Env := { envBase with kubeGet := fun _ => .found instDelBusy }

/-- The configuration fixture with dry-run enabled. -/
def cfgDry : ReconcilerConfig := { cfgBase with dryRun := true }

/-! ### C2: the template-presence check of create logic -/

/-- A resource with both the template body and the template URL set. -/
def instBothTemplates : StackInstance :=
  { instBase with spec := { specBase with template := "body", templateUrl := "https://t" } }

/-- A resource with neither template field set. -/
def instNoTemplates : StackInstance :=
  { instBase with spec := { specBase with template := "", templateUrl := "" } }

/-- C2 counterexample: with both template fields set, create logic neither
returns `ErrMissingTemplateSpec` nor skips the remote call — it issues one
CreateStack call using the template body. -/
theorem c2_both_templates_still_creates :
    instBothTemplates.spec.template ≠ "" ∧ instBothTemplates.spec.templateUrl ≠ "" ∧
    (createStack cfgBase envBase instBothTemplates).result ≠
      .error .missingTemplateSpec ∧
    (createStack cfgBase envBase instBothTemplates).calls.length = 1 := by
  refine ⟨by decide, by decide, ?_, rfl⟩
  intro h
  rw [show (createStack cfgBase envBase instBothTemplates).result = .ok () from rfl] at h
  cases h

/-- C2 (amended): create logic requires at least one of {template body,
template reference}: given neither, it returns `ErrMissingTemplateSpec` and
issues no remote call; when the template body is set it takes precedence and
any issued CreateStack call carries it. -/
theorem c2_template_check (cfg : ReconcilerConfig) (env : Env) (inst : StackInstance)
    (hdry : cfg.dryRun = false) :
    ((createStack cfg env inst).result = .error .missingTemplateSpec ↔
      (inst.spec.template = "" ∧ inst.spec.templateUrl = "")) ∧
    (inst.spec.template = "" ∧ inst.spec.templateUrl = "" →
      (createStack cfg env inst).calls = []) ∧
    (inst.spec.template ≠ "" →
      ∀ c ∈ (createStack cfg env inst).calls,
        ∃ input, c = .createStack input ∧ input.templateBody = some inst.spec.template) := by
  by_cases ht : inst.spec.template = "" <;>
    by_cases hu : inst.spec.templateUrl = "" <;>
      cases hcr : env.createRaw <;>
        simp [createStack, hdry, ht, hu, hcr]

/-- Witness for the amended C2 theorem: with neither template field set the
fixture returns `ErrMissingTemplateSpec` and issues no call. -/
theorem c2_template_check_witness :
    (createStack cfgBase envBase instNoTemplates).result =
      .error .missingTemplateSpec ∧
    (createStack cfgBase envBase instNoTemplates).calls = [] :=
  ⟨(c2_template_check cfgBase envBase instNoTemplates rfl).1.mpr ⟨rfl, rfl⟩,
   (c2_template_check cfgBase envBase instNoTemplates rfl).2.1 ⟨rfl, rfl⟩⟩

/-! ### C3 and C10: the deletion path of the reconcile loop -/

/-- C3: for a resource marked for deletion that still carries a finalization
marker, a recorded status of `DELETE_COMPLETE` or an empty recorded status
makes the reconciler drop both finalizer names together and persist with one
metadata update, issuing no remote call and no handoff; any other recorded
status routes to delete logic instead. -/
theorem c3_finalize_or_delete (cfg : ReconcilerConfig) (env : Env)
    (nn : NamespacedName) (inst : StackInstance)
    (hget : env.kubeGet nn = .found inst)
    (hmark : inst.deletionTimestamp.isSome = true)
    (hfin : containsFinalizer inst stacksFinalizer = true ∨
            containsFinalizer inst legacyFinalizer = true) :
    ((inst.status.stackStatus = "DELETE_COMPLETE" ∨ inst.status.stackStatus = "") →
      (reconcile cfg env nn).calls = [] ∧ (reconcile cfg env nn).sends = 0 ∧
      (reconcile cfg env nn).kubeUpdates = 1 ∧
      (reconcile cfg env nn).inst =
        some (removeFinalizer (removeFinalizer inst stacksFinalizer) legacyFinalizer) ∧
      ∀ f ∈ (removeFinalizer (removeFinalizer inst stacksFinalizer)
              legacyFinalizer).finalizers,
        f ≠ stacksFinalizer ∧ f ≠ legacyFinalizer) ∧
    ((inst.status.stackStatus ≠ "DELETE_COMPLETE" ∧ inst.status.stackStatus ≠ "") →
      (reconcile cfg env nn).result = (deleteStack cfg env inst none).result ∧
      (reconcile cfg env nn).calls = (deleteStack cfg env inst none).calls ∧
      (reconcile cfg env nn).sends = (deleteStack cfg env inst none).sends) := by
  have hor : (containsFinalizer inst stacksFinalizer ||
      containsFinalizer inst legacyFinalizer) = true := by
    rcases hfin with h | h <;> simp [h]
  constructor
  · intro hstat
    refine ⟨?_, ?_, ?_, ?_, ?_⟩ <;>
      first
        | (simp [reconcile, hget, hmark, hor, hstat]
           cases hk : env.kubeUpdate <;> simp [hk])
        | (intro f hf
           simp [removeFinalizer, List.mem_filter] at hf
           exact ⟨by simpa using hf.2.2, by simpa using hf.2.1⟩)
  · intro hstat
    have hneg : ¬ (inst.status.stackStatus = "DELETE_COMPLETE" ∨
        inst.status.stackStatus = "") := not_or.mpr ⟨hstat.1, hstat.2⟩
    refine ⟨?_, ?_, ?_⟩ <;> simp [reconcile, hget, hmark, hor, hneg]

/-- Witness for C3: a fixture marked for deletion with recorded status
`DELETE_COMPLETE` is finalized with no remote call, and the same fixture
with an in-progress recorded status routes to delete logic. -/
theorem c3_finalize_or_delete_witness :
    (reconcile cfgBase envDel nnBase).calls = [] ∧
    (reconcile cfgBase envDel nnBase).kubeUpdates = 1 ∧
    (reconcile cfgBase envDelBusy nnBase).result =
      (deleteStack cfgBase envDelBusy instDelBusy none).result :=
  ⟨((c3_finalize_or_delete cfgBase envDel nnBase instDel rfl rfl
      (Or.inl rfl)).1 (Or.inl rfl)).1,
   ((c3_finalize_or_delete cfgBase envDel nnBase instDel rfl rfl
      (Or.inl rfl)).1 (Or.inl rfl)).2.2.1,
   ((c3_finalize_or_delete cfgBase envDelBusy nnBase instDelBusy rfl rfl
      (Or.inl rfl)).2 (by refine ⟨?_, ?_⟩ <;> decide)).1⟩

/-- C10: with dry-run enabled, a reconcile pass on a resource marked for
deletion (finalizer present, remote deletion not yet recorded complete)
returns success with no remote call at all — in particular no ownership
re-verification fetch and no DeleteStack — no handoff, no persistence, and
the resource (its finalizers included) left untouched. -/
theorem c10_dryrun_delete_short_circuit (cfg : ReconcilerConfig) (env : Env)
    (nn : NamespacedName) (inst : StackInstance)
    (hget : env.kubeGet nn = .found inst)
    (hmark : inst.deletionTimestamp.isSome = true)
    (hfin : containsFinalizer inst stacksFinalizer = true ∨
            containsFinalizer inst legacyFinalizer = true)
    (hstat : inst.status.stackStatus ≠ "DELETE_COMPLETE" ∧ inst.status.stackStatus ≠ "")
    (hdry : cfg.dryRun = true) :
    (reconcile cfg env nn).result = .ok () ∧
    (reconcile cfg env nn).inst = some inst ∧
    (reconcile cfg env nn).calls = [] ∧
    (reconcile cfg env nn).sends = 0 ∧
    (reconcile cfg env nn).persists = 0 ∧
    (reconcile cfg env nn).kubeUpdates = 0 := by
  have hor : (containsFinalizer inst stacksFinalizer ||
      containsFinalizer inst legacyFinalizer) = true := by
    rcases hfin with h | h <;> simp [h]
  have hneg : ¬ (inst.status.stackStatus = "DELETE_COMPLETE" ∨
      inst.status.stackStatus = "") := not_or.mpr ⟨hstat.1, hstat.2⟩
  refine ⟨?_, ?_, ?_, ?_, ?_, ?_⟩ <;>
    simp [reconcile, hget, hmark, hor, hneg, deleteStack, hdry]

/-- Witness for C10: the deletion fixture under dry-run is left untouched
with no remote calls. -/
theorem c10_dryrun_delete_short_circuit_witness :
    (reconcile cfgDry envDelBusy nnBase).result = .ok () ∧
    (reconcile cfgDry envDelBusy nnBase).calls = [] :=
  ⟨(c10_dryrun_delete_short_circuit cfgDry envDelBusy nnBase instDelBusy rfl rfl
      (Or.inl rfl) (by refine ⟨?_, ?_⟩ <;> decide) rfl).1,
   (c10_dryrun_delete_short_circuit cfgDry envDelBusy nnBase instDelBusy rfl rfl
      (Or.inl rfl) (by refine ⟨?_, ?_⟩ <;> decide) rfl).2.2.1⟩

/-! ### C4: the "no updates to perform" sentinel of update logic -/

/-- The oracle fixture whose remote update reports nothing to update. -/
def envNoUpdates : Env :=
  { envBase with updateRaw := .error "No updates are to be performed." }

/-- C4: when the remote update fails with the "No updates are to be
performed." sentinel, update logic runs a direct status refresh, performs no
handoff, and returns exactly the refresh's outcome (result, in-memory
resource and persistence count). -/
theorem c4_no_updates_sentinel (cfg : ReconcilerConfig) (env : Env)
    (inst : StackInstance) (msg : String)
    (hdry : cfg.dryRun = false)
    (htmpl : ¬ (inst.spec.template = "" ∧ inst.spec.templateUrl = ""))
    (hupd : env.updateRaw = .error msg)
    (hsent : goContains msg "No updates are to be performed." = true) :
    (updateStack cfg env inst).result = (UpdateStackStatusPub env inst).result ∧
    (updateStack cfg env inst).inst = (UpdateStackStatusPub env inst).inst ∧
    (updateStack cfg env inst).persists = (UpdateStackStatusPub env inst).persists ∧
    (updateStack cfg env inst).sends = 0 := by
  refine ⟨?_, ?_, ?_, ?_⟩ <;>
    simp [updateStack, hdry, htmpl, hupd, hsent]

/-- Witness for C4: the fixture's refresh finds nothing changed, so the
update invocation succeeds with no handoff. -/
theorem c4_no_updates_sentinel_witness :
    (updateStack cfgBase envNoUpdates instBase).result =
      (UpdateStackStatusPub envNoUpdates instBase).result ∧
    (updateStack cfgBase envNoUpdates instBase).sends = 0 :=
  ⟨(c4_no_updates_sentinel cfgBase envNoUpdates instBase
      "No updates are to be performed." rfl (by simp [instBase, specBase]) rfl rfl).1,
   (c4_no_updates_sentinel cfgBase envNoUpdates instBase
      "No updates are to be performed." rfl (by simp [instBase, specBase]) rfl rfl).2.2.2⟩

/-! ### C5: delete logic on an unowned remote stack -/

/-- A remote stack carrying no ownership tag. -/
def cfsUnowned : CfStack := { cfsBase with tags := [⟨"team", "other"⟩] }

/-- The oracle fixture serving the unowned remote stack. -/
def envUnowned : Env := { envBase with cfGet := fun _ => .ok cfsUnowned }

/-- C5: delete logic on a remote stack that exists (fetch succeeds, status
not `DELETE_COMPLETE`) but lacks the ownership tag pair returns success,
issues only the ownership fetch (no DeleteStack call), and performs no
handoff. -/
theorem c5_delete_unowned_noop (cfg : ReconcilerConfig) (env : Env)
    (inst : StackInstance) (s : CfStack)
    (hdry : cfg.dryRun = false)
    (hget : env.cfGet inst.status.stackID = .ok s)
    (hstat : s.stackStatus ≠ "DELETE_COMPLETE")
    (htags : s.tags.any (fun t => t.key == controllerKey &&
      t.value == controllerValue) = false) :
    (deleteStack cfg env inst none).result = .ok () ∧
    (deleteStack cfg env inst none).calls = [.getStack inst.status.stackID] ∧
    (deleteStack cfg env inst none).sends = 0 := by
  refine ⟨?_, ?_, ?_⟩ <;>
    simp [deleteStack, hasOwnership, stackExists, getStackMemo, hdry, hget, hstat, htags]

/-- Witness for C5: the unowned fixture is left alone by delete logic. -/
theorem c5_delete_unowned_noop_witness :
    (deleteStack cfgBase envUnowned instBase none).result = .ok () ∧
    (deleteStack cfgBase envUnowned instBase none).calls =
      [.getStack instBase.status.stackID] ∧
    (deleteStack cfgBase envUnowned instBase none).sends = 0 :=
  c5_delete_unowned_noop cfgBase envUnowned instBase cfsUnowned rfl rfl
    (by decide) (by decide)

/-! ### C9: the ownership check -/

/-- The oracle fixture whose remote stack lookup reports NotFound. -/
def envGone : Env := { envBase with cfGet := fun _ => .errNotFound }

/-- C9: the ownership check answers true when the remote stack does not
exist — a NotFound fetch is not an error, and a stack recorded as
`DELETE_COMPLETE` counts as non-existent — and otherwise answers whether the
remote tag set contains the fixed controller key/value pair. -/
theorem c9_ownership_characterization (env : Env) (inst : StackInstance)
    (s : CfStack) :
    (env.cfGet inst.status.stackID = .errNotFound →
      (hasOwnership env inst none).1 = .ok true) ∧
    (env.cfGet inst.status.stackID = .ok s →
      (hasOwnership env inst none).1 =
        .ok (s.stackStatus == "DELETE_COMPLETE" ||
          s.tags.any fun t => t.key == controllerKey && t.value == controllerValue)) := by
  constructor
  · intro h
    simp [hasOwnership, stackExists, getStackMemo, h]
  · intro h
    by_cases hdc : s.stackStatus = "DELETE_COMPLETE" <;>
      simp [hasOwnership, stackExists, getStackMemo, h, hdc]

/-- Witness for C9: a NotFound fetch yields vacuous ownership, and the owned
fixture's tag pair yields ownership. -/
theorem c9_ownership_characterization_witness :
    (hasOwnership envGone instBase none).1 = .ok true ∧
    (hasOwnership envBase instBase none).1 =
      .ok (cfsBase.stackStatus == "DELETE_COMPLETE" ||
        cfsBase.tags.any fun t => t.key == controllerKey &&
          t.value == controllerValue) :=
  ⟨(c9_ownership_characterization envGone instBase cfsBase).1 rfl,
   (c9_ownership_characterization envBase instBase cfsBase).2 rfl⟩

/-! ### C7: the receiver loop is idempotent and keeps the registry unique -/

/-- The stack identifiers currently registered. -/
def registryKeys (s : FollowerState) : List String :=
  s.registry.map Prod.fst

/-- `BeingFollowed` answers membership in the registered keys. -/
theorem beingFollowed_iff (s : FollowerState) (stackId : String) :
    beingFollowed s stackId = true ↔ stackId ∈ registryKeys s := by
  simp [beingFollowed, registryKeys, List.any_eq_true, List.mem_map]

/-- One receiver iteration preserves key uniqueness of the registry. -/
theorem receiveOne_nodup (s : FollowerState) (stack : StackInstance)
    (hnd : (registryKeys s).Nodup) :
    (registryKeys (receiveOne s stack)).Nodup := by
  cases hb : beingFollowed s stack.status.stackID
  · have hnotin : stack.status.stackID ∉ registryKeys s := by
      intro hmem
      rw [← beingFollowed_iff] at hmem
      rw [hb] at hmem
      cases hmem
    have hany : s.registry.any (·.1 == stack.status.stackID) = false := hb
    have hkeys : registryKeys (receiveOne s stack) =
        registryKeys s ++ [stack.status.stackID] := by
      simp [receiveOne, hb, startFollowing, syncMapStore, hany, registryKeys]
    rw [hkeys]
    refine List.Nodup.append hnd (List.nodup_singleton _) ?_
    intro a ha hb2
    rw [List.mem_singleton] at hb2
    subst hb2
    exact hnotin ha
  · simp [receiveOne, hb]
    exact hnd

/-- C7: processing any sequence of handoff requests keeps at most one
registry entry per stack identifier; a request for an identifier already
followed is ignored outright, and a request for a new identifier appends
exactly one entry and bumps both the gauge and the monotone counter by
one. -/
theorem c7_receiver_idempotent_unique (s : FollowerState)
    (reqs : List StackInstance) (stack : StackInstance)
    (hnd : (registryKeys s).Nodup) :
    (registryKeys (reqs.foldl receiveOne s)).Nodup ∧
    (beingFollowed s stack.status.stackID = true → receiveOne s stack = s) ∧
    (beingFollowed s stack.status.stackID = false →
      (receiveOne s stack).registry =
        s.registry ++ [(stack.status.stackID, ⟨stack.name, stack.nsName⟩)] ∧
      (receiveOne s stack).following = s.following + 1 ∧
      (receiveOne s stack).followed = s.followed + 1) := by
  refine ⟨?_, ?_, ?_⟩
  · induction reqs generalizing s with
    | nil => exact hnd
    | cons r rest ih =>
      exact ih (receiveOne s r) (receiveOne_nodup s r hnd)
  · intro hb
    simp [receiveOne, hb]
  · intro hb
    have hany : s.registry.any (·.1 == stack.status.stackID) = false := hb
    refine ⟨?_, ?_, ?_⟩ <;>
      simp [receiveOne, hb, startFollowing, syncMapStore, hany]

/-- The follower-state fixture: one entry, gauge and counter at one. -/
def followerBase : FollowerState := ⟨[("sid-1", nnBase)], 1, 1⟩

/-- Witness for C7: from the singleton fixture, a duplicate handoff is
ignored and a fresh handoff appends one entry. -/
theorem c7_receiver_idempotent_unique_witness :
    (registryKeys ([instBase].foldl receiveOne followerBase)).Nodup ∧
    (beingFollowed followerBase instBase.status.stackID = true →
      receiveOne followerBase instBase = followerBase) :=
  ⟨(c7_receiver_idempotent_unique followerBase [instBase] instBase (by decide)).1,
   (c7_receiver_idempotent_unique followerBase [instBase] instBase (by decide)).2.1⟩

/-! ### C8: terminal stacks stop being followed within one tick -/

/-- Stability of the oracles for one registry entry: the owning resource
and the remote stack both carry the entry's stack identifier. -/
def entryStable (env : Env) (e : String × NamespacedName) : Prop :=
  (∀ st, env.kubeGet e.2 = .found st → st.status.stackID = e.1) ∧
  (∀ st c, env.kubeGet e.2 = .found st → env.cfGet st.status.stackID = .ok c →
    c.stackId = e.1)

/-- The merged stack ID is either the remote one or the stored one. -/
theorem mergeStatusPre_stackID (st : StackStatusRec) (cfs : CfStack) :
    (mergeStatusPre st cfs).1.stackID = cfs.stackId ∨
    (mergeStatusPre st cfs).1.stackID = st.stackID := by
  by_cases h1 : cfs.stackStatus = st.stackStatus <;>
    by_cases h2 : cfs.stackId = st.stackID <;>
      cases h3 : deepEqualGoMap (some (buildOutputs cfs.outputs)) st.outputs <;>
        cases hr : cfs.roleARN <;>
          simp [mergeStatusPre, h1, h2, h3, hr] <;>
            split <;> simp

/-- The merge body always issues exactly the resource fetch on top of the
calls already incurred, keyed by the merged stack ID. -/
theorem updateStackStatusWith_calls (env : Env) (inst : StackInstance)
    (cfs : CfStack) (calls0 : List RemoteCall) :
    (updateStackStatusWith env inst cfs calls0).calls =
      calls0 ++ [.getStackResources (mergeStatusPre inst.status cfs).1.stackID] := by
  rcases hm : mergeStatusPre inst.status cfs with ⟨st1, u1⟩
  simp only [updateStackStatusWith, hm]
  cases hr : env.cfResources st1.stackID with
  | error m => simp
  | ok rs =>
    rcases hm2 : mergeResources st1 rs u1 with ⟨st2, u2⟩
    simp only [hm2]
    cases hp : env.statusPersist <;> cases u2 <;> simp

/-- A stopped entry's key never survives in the registry. -/
theorem stopFollowing_no_key (t : FollowerState) (stackId : String) :
    stackId ∉ registryKeys (stopFollowing t stackId) := by
  intro hmem
  rcases List.mem_map.mp hmem with ⟨x, hx, hfst⟩
  simp [stopFollowing, syncMapDelete, List.mem_filter] at hx
  exact hx.2 (by rw [hfst])

/-- Per-entry processing never adds registry entries. -/
theorem processStack_registry_sub (env : Env) (s : FollowerState)
    (e : String × NamespacedName) :
    ∀ x ∈ (processStack env s e).1.registry, x ∈ s.registry := by
  intro x hx
  have hstop : ∀ t : FollowerState, ∀ y ∈ (stopFollowing t e.1).registry,
      y ∈ t.registry := by
    intro t y hy
    simp [stopFollowing, syncMapDelete, List.mem_filter] at hy
    exact hy.1
  unfold processStack at hx
  cases hk : env.kubeGet e.2 <;> simp only [hk] at hx
  case errNotFound => exact hstop s x hx
  case errOther => exact hx
  case found stack =>
    cases hc : env.cfGet stack.status.stackID <;> simp only [hc] at hx
    case errNotFound => exact hstop s x hx
    case errOther => exact hx
    case ok cfs =>
      cases hr : (updateStackStatusWith env stack cfs []).result <;>
        simp only [hr] at hx
      case error => exact hx
      case ok =>
        by_cases ht : env.terminal cfs.stackStatus = true
        · rw [if_pos ht] at hx
          exact hstop s x hx
        · rw [if_neg ht] at hx
          exact hx

/-- The poll-tick fold never adds registry entries. -/
theorem tick_fold_registry_sub (env : Env) (l : List (String × NamespacedName)) :
    ∀ (acc : FollowerState × List RemoteCall) x,
      x ∈ (l.foldl (fun acc e =>
        ((processStack env acc.1 e).1, acc.2 ++ (processStack env acc.1 e).2))
        acc).1.registry →
      x ∈ acc.1.registry := by
  induction l with
  | nil => intro acc x hx; exact hx
  | cons e rest ih =>
    intro acc x hx
    simp only [List.foldl_cons] at hx
    exact processStack_registry_sub env acc.1 e x
      (ih ((processStack env acc.1 e).1, acc.2 ++ (processStack env acc.1 e).2) x hx)

/-- One poll tick never adds registry entries. -/
theorem tick_registry_sub (env : Env) (s : FollowerState) :
    ∀ x ∈ (tick env s).1.registry, x ∈ s.registry := by
  intro x hx
  exact tick_fold_registry_sub env s.registry (s, []) x hx

/-- An absent key stays absent across a tick. -/
theorem tick_preserves_no_key (env : Env) (s : FollowerState) (stackId : String)
    (h : stackId ∉ registryKeys s) : stackId ∉ registryKeys (tick env s).1 := by
  intro hmem
  rcases List.mem_map.mp hmem with ⟨x, hx, hfst⟩
  exact h (List.mem_map.mpr ⟨x, tick_registry_sub env s x hx, hfst⟩)

/-- With a live owning resource, a successfully fetched remote stack, a
successful merge, and a terminal remote status, per-entry processing stops
following the entry. -/
theorem processStack_removes (env : Env) (s : FollowerState) (stackId : String)
    (nn : NamespacedName) (stack : StackInstance) (cfs : CfStack)
    (resources : List StackResource)
    (hget : env.kubeGet nn = .found stack)
    (hcf : env.cfGet stack.status.stackID = .ok cfs)
    (hres : env.cfResources (mergeStatusPre stack.status cfs).1.stackID = .ok resources)
    (hpersist : ∀ m, env.statusPersist ≠ .errOther m)
    (hterm : env.terminal cfs.stackStatus = true) :
    (processStack env s (stackId, nn)).1 = stopFollowing s stackId := by
  have hok : (updateStackStatusWith env stack cfs []).result = .ok () := by
    rcases hm : mergeStatusPre stack.status cfs with ⟨st1, u1⟩
    rw [hm] at hres
    have hres' : env.cfResources st1.stackID = .ok resources := hres
    rcases hm2 : mergeResources st1 resources u1 with ⟨st2, u2⟩
    simp only [updateStackStatusWith, hm, hres', hm2]
    cases hp : env.statusPersist <;> cases u2 <;>
      first
        | exact absurd hp (hpersist _)
        | simp
  simp [processStack, hget, hcf, hok, hterm]

/-- Per-entry processing touches only its own entry's calls under a stable
oracle. -/
theorem processStack_calls_id (env : Env) (s : FollowerState)
    (e : String × NamespacedName) (hstable : entryStable env e) :
    ∀ c ∈ (processStack env s e).2, callId c = e.1 := by
  intro c hc
  unfold processStack at hc
  cases hk : env.kubeGet e.2 <;> simp only [hk] at hc
  case errNotFound => cases hc
  case errOther => cases hc
  case found stack =>
    have hid : stack.status.stackID = e.1 := hstable.1 stack hk
    cases hcf : env.cfGet stack.status.stackID <;> simp only [hcf] at hc
    case errNotFound =>
      rcases List.mem_singleton.mp hc with rfl
      exact hid
    case errOther =>
      rcases List.mem_singleton.mp hc with rfl
      exact hid
    case ok cfs =>
      have hcfs : cfs.stackId = e.1 := hstable.2 stack cfs hk hcf
      have hcalls := updateStackStatusWith_calls env stack cfs []
      have hmid : (mergeStatusPre stack.status cfs).1.stackID = e.1 := by
        rcases mergeStatusPre_stackID stack.status cfs with h | h
        · rw [h, hcfs]
        · rw [h, hid]
      cases hr : (updateStackStatusWith env stack cfs []).result <;>
        simp only [hr] at hc <;>
        rw [hcalls] at hc <;>
        simp at hc <;>
        rcases hc with rfl | rfl
      · exact hid
      · exact hmid
      · exact hid
      · exact hmid

/-- Every call a tick makes is keyed by some registered identifier, given a
stable oracle for each entry. -/
theorem tick_fold_calls (env : Env) (l : List (String × NamespacedName))
    (hstable : ∀ e ∈ l, entryStable env e) :
    ∀ (acc : FollowerState × List RemoteCall) c,
      c ∈ (l.foldl (fun acc e =>
        ((processStack env acc.1 e).1, acc.2 ++ (processStack env acc.1 e).2))
        acc).2 →
      c ∈ acc.2 ∨ ∃ e ∈ l, callId c = e.1 := by
  induction l with
  | nil => intro acc c hc; exact Or.inl hc
  | cons e rest ih =>
    intro acc c hc
    simp only [List.foldl_cons] at hc
    rcases ih (fun x hx => hstable x (List.mem_cons_of_mem e hx)) _ c hc with h | h
    · rcases List.mem_append.mp h with h' | h'
      · exact Or.inl h'
      · exact Or.inr ⟨e, List.mem_cons_self e rest,
          processStack_calls_id env acc.1 e (hstable e (List.mem_cons_self e rest)) c h'⟩
    · rcases h with ⟨x, hx, hcx⟩
      exact Or.inr ⟨x, List.mem_cons_of_mem e hx, hcx⟩

/-- Every call a tick makes is keyed by a registered identifier. -/
theorem tick_calls_in_keys (env : Env) (s : FollowerState)
    (hstable : ∀ e ∈ s.registry, entryStable env e) :
    ∀ c ∈ (tick env s).2, callId c ∈ registryKeys s := by
  intro c hc
  rcases tick_fold_calls env s.registry hstable (s, []) c hc with h | h
  · cases h
  · rcases h with ⟨e, he, hce⟩
    exact List.mem_map.mpr ⟨e, he, hce.symm⟩

/-- Repeated ticks from a state not containing a key never call out for that
key, given stable oracles. -/
theorem tickN_no_calls_for (env : Env) (stackId : String) :
    ∀ n (s : FollowerState), stackId ∉ registryKeys s →
      (∀ e ∈ s.registry, entryStable env e) →
      ∀ c ∈ (tickN env s n).2, callId c ≠ stackId := by
  intro n
  induction n with
  | zero =>
    intro s _ _ c hc
    cases hc
  | succ k ih =>
    intro s hnot hstable c hc
    simp only [tickN] at hc
    rcases List.mem_append.mp hc with h | h
    · intro heq
      have hkeys := tick_calls_in_keys env s hstable c h
      rw [heq] at hkeys
      exact hnot hkeys
    · exact ih (tick env s).1
        (tick_preserves_no_key env s stackId hnot)
        (fun e he => hstable e (tick_registry_sub env s e he)) c h

/-- C8: a followed entry whose resource is live, whose remote fetch and
status merge succeed on this tick, and whose remote status is terminal, is
removed from the registry within that one tick; from then on, under a
stable oracle, no poll tick issues any CloudFormation call keyed by that
entry's identifier. -/
theorem c8_terminal_removed_no_more_calls (env : Env) (s : FollowerState)
    (stackId : String) (nn : NamespacedName) (stack : StackInstance)
    (cfs : CfStack) (resources : List StackResource)
    (hmem : (stackId, nn) ∈ s.registry)
    (hstable : ∀ e ∈ s.registry, entryStable env e)
    (hget : env.kubeGet nn = .found stack)
    (hcf : env.cfGet stack.status.stackID = .ok cfs)
    (hres : env.cfResources (mergeStatusPre stack.status cfs).1.stackID = .ok resources)
    (hpersist : ∀ m, env.statusPersist ≠ .errOther m)
    (hterm : env.terminal cfs.stackStatus = true) :
    stackId ∉ registryKeys (tick env s).1 ∧
    ∀ n, ∀ c ∈ (tickN env (tick env s).1 n).2, callId c ≠ stackId := by
  have hrem : stackId ∉ registryKeys (tick env s).1 := by
    rcases List.append_of_mem hmem with ⟨l1, l2, hsplit⟩
    have hsub := tick_fold_registry_sub env l2
    intro hmem2
    rcases List.mem_map.mp hmem2 with ⟨x, hx, hfst⟩
    simp only [tick, hsplit, List.foldl_append, List.foldl_cons] at hx
    have hx2 := hsub _ x hx
    simp only at hx2
    rw [processStack_removes env _ stackId nn stack cfs resources hget hcf hres
      hpersist hterm] at hx2
    exact stopFollowing_no_key _ stackId (List.mem_map.mpr ⟨x, hx2, hfst⟩)
  refine ⟨hrem, ?_⟩
  intro n
  exact tickN_no_calls_for env stackId n (tick env s).1 hrem
    (fun e he => hstable e (tick_registry_sub env s e he))

/-- Witness for C8: from the singleton fixture whose remote stack is
terminal, one tick removes the entry and later ticks issue no call for
it. -/
theorem c8_terminal_removed_no_more_calls_witness :
    "sid-1" ∉ registryKeys (tick envBase followerBase).1 ∧
    ∀ n, ∀ c ∈ (tickN envBase (tick envBase followerBase).1 n).2,
      callId c ≠ "sid-1" :=
  c8_terminal_removed_no_more_calls envBase followerBase "sid-1" nnBase instBase
    cfsBase []
    (by decide)
    (by
      intro e he
      have he' : e = ("sid-1", nnBase) := by simpa [followerBase] using he
      subst he'
      constructor
      · intro st h
        injection h with h1
        subst h1
        rfl
      · intro st c h hc
        injection h with h1
        subst h1
        injection hc with h2
        subst h2
        rfl)
    rfl rfl rfl (fun _ h => nomatch h) rfl

end CfnCtrl
